import Mathlib

/-!
Verification of `multi_anabim.py` (IFC → Excel report generator).

The Python source is shallowly embedded: each relevant function of the
source is translated into an executable Lean definition over an explicit
record model of the data the program reads (IFC entities, unit
assignments, sites, storeys, aggregation relations, products) and of the
data it writes (workbooks, sheets, styled cells).  Numeric values are
modelled by `ℚ` (the computations at stake are exact: scaling by 0.001 or
1, additions, divisions by constants).  Python `None` is modelled by
`Option`, Python exceptions by `Except` or by the explicit fallback the
source installs around them.
-/

namespace Anabim

/-- A spreadsheet cell value: a string, a number, or Python `None`. -/
inductive CellVal where
  | vs : String → CellVal
  | vq : ℚ → CellVal
  | vnone : CellVal
deriving DecidableEq

/-- A spreadsheet cell: 1-based row/column address, a value and its
cell-level style (`openpyxl`'s `_style`, modelled as an opaque tag). -/
structure Cell where
  row : Nat
  col : Nat
  value : CellVal
  style : String
deriving DecidableEq

/-- A worksheet, as the list of its written cells. -/
abbrev Sheet := List Cell

/-- A workbook: ordered sheets, each with its name. -/
abbrev Workbook := List (String × Sheet)

/-- One entry of an `IfcUnitAssignment.Units` list: whether the entry
`is_a("IfcSIUnit")`, its `UnitType`, and its optional `Prefix` attribute
(the field is renamed `pfx` here). -/
structure IfcSIUnit where
  isSI : Bool
  unitType : String
  pfx : Option String
deriving DecidableEq

/-- An `IfcMapConversion`: eastings, northings, optional orthogonal height. -/
structure IfcMapConversion where
  eastings : ℚ
  northings : ℚ
  orthogonalHeight : Option ℚ
deriving DecidableEq

/-- A site's `ObjectPlacement`: whether it `is_a("IfcLocalPlacement")`, and
its `RelativePlacement.Location.Coordinates` list. -/
structure IfcPlacement where
  isLocalPlacement : Bool
  coordinates : List ℚ
deriving DecidableEq

/-- An `IfcSite`: optional DMS latitude/longitude tuples, optional
reference elevation, optional object placement. -/
structure IfcSite where
  refLatitude : Option (List ℚ)
  refLongitude : Option (List ℚ)
  refElevation : Option ℚ
  objectPlacement : Option IfcPlacement
deriving DecidableEq

/-- An `IfcBuildingStorey`: its `Name` and optional `Elevation`. -/
structure IfcBuildingStorey where
  nom : Option String
  elevation : Option ℚ
deriving DecidableEq

/-- A generic IFC entity as used by the hierarchy walk: its class name
(`is_a()`), optional `Name` and `LongName`, and its `GlobalId`. -/
structure IfcEntity where
  kindOf : String
  name : Option String
  longName : Option String
  globalId : String
deriving DecidableEq

/-- An `IfcRelAggregates` relation: one relating (parent) object and the
ordered list of related (child) objects. -/
structure IfcRelAggregates where
  relatingObject : IfcEntity
  relatedObjects : List IfcEntity
deriving DecidableEq

/-- An `IfcProduct` as seen by the entity aggregator: its class name, its
optional `PredefinedType` (absent attribute and `None` value both map to
`none`; the source applies `str(...)` to present values, so the model
stores the resulting string) and its optional `ObjectType`. -/
structure IfcProduct where
  kindOf : String
  predefinedType : Option String
  objectType : Option String
deriving DecidableEq

/-- The queryable model graph: the results of the `model.by_type(...)`
calls the source makes, plus the declared schema identifier.  Each
`IfcUnitAssignment` is represented by its `Units` list. -/
structure IfcModel where
  schema : String
  unitAssignments : List (List IfcSIUnit)
  storeys : List IfcBuildingStorey
  sites : List IfcSite
  mapConversions : List IfcMapConversion
  relAggregates : List IfcRelAggregates
  projects : List IfcEntity
  products : List IfcProduct
deriving DecidableEq

/-- `get_length_factor`: 0.001 if the model declares millimetres, else 1.0.
The source wraps the whole lookup in `try: ... except Exception: pass`
and then returns 1.0: a missing unit assignment (`[0]` raising
`IndexError`), no matching SI length unit (`next` raising
`StopIteration`) and an absent `Prefix` attribute (`getattr` default)
all fall through to 1.0, which the branches below reproduce. -/
def get_length_factor (m : IfcModel) : ℚ :=
  match m.unitAssignments.head? with
  | none => 1
  | some ua =>
    match ua.find? (fun u => u.isSI && u.unitType == "LENGTHUNIT") with
    | none => 1
    | some lu => if lu.pfx == some "MILLI" then 1 / 1000 else 1

/-- Core of `dms_to_dd` on a present tuple: pad to 4 components with zeros,
take degrees/minutes/seconds/micro-seconds, apply the sign of the degrees
component to the unsigned magnitude sum. -/
def dmsCore (dms : List ℚ) : ℚ :=
  let parts := dms ++ List.replicate (4 - dms.length) 0
  let deg := parts.getD 0 0
  let minute := parts.getD 1 0
  let sec := parts.getD 2 0
  let micro := parts.getD 3 0
  let sign : ℚ := if deg < 0 then -1 else 1
  sign * (|deg| + minute / 60 + (sec + micro / 1000000) / 3600)

/-- `dms_to_dd`: `None` maps to `None`, otherwise convert the DMS tuple to
decimal degrees. -/
def dms_to_dd (dms : Option (List ℚ)) : Option ℚ :=
  dms.map dmsCore

/-- `get_site_geolocation`: `{}` when the model has no site; otherwise the
three keys, where latitude/longitude go through `dms_to_dd` only when the
tuple is truthy (`if site.RefLatitude` — `None` and the empty tuple are
falsy) and the elevation passes through unchanged. -/
def get_site_geolocation (m : IfcModel) : List (String × Option ℚ) :=
  match m.sites.head? with
  | none => []
  | some site =>
    [("latitude",
       match site.refLatitude with
       | some l => if l = [] then none else dms_to_dd (some l)
       | none => none),
     ("longitude",
       match site.refLongitude with
       | some l => if l = [] then none else dms_to_dd (some l)
       | none => none),
     ("elevation_m", site.refElevation)]

/-- Python's `dict.get(k)` on the string-keyed coordinate dicts: `None`
both when the key is missing and when it is stored with value `None`
(first-match lookup on the insertion-ordered association list). -/
def fieldLookup : List (String × Option ℚ) → String → Option ℚ
  | [], _ => none
  | (k1, v) :: rest, k => if k1 = k then v else fieldLookup rest k

/-- `x, y, *rest = list(loc.Coordinates) + [None, None]; z = rest[0]`:
pad the coordinate list with two `None`s and read the first three slots.
(On an empty coordinate list the source would raise `IndexError`; an IFC
cartesian point always has at least one coordinate.) -/
def padCoords (cs : List ℚ) : Option ℚ × Option ℚ × Option ℚ :=
  let padded := cs.map some ++ [none, none]
  (padded.getD 0 none, padded.getD 1 none, padded.getD 2 none)

/-- The guard `site and site.ObjectPlacement and
site.ObjectPlacement.is_a("IfcLocalPlacement")` on the first site. -/
def sitePlacementOk (m : IfcModel) : Bool :=
  match m.sites.head? with
  | some s =>
    match s.objectPlacement with
    | some pl => pl.isLocalPlacement
    | none => false
  | none => false

/-- `get_global_coords`: prefer the first map conversion (eastings /
northings / orthogonal height, each scaled by the length factor, height
`None` when absent); else fall back to the first site's local placement
coordinates scaled by the factor; else `{}`. -/
def get_global_coords (m : IfcModel) : List (String × Option ℚ) :=
  let factor := get_length_factor m
  match m.mapConversions.head? with
  | some mc =>
    [("X_global_m", some (mc.eastings * factor)),
     ("Y_global_m", some (mc.northings * factor)),
     ("Z_global_m", mc.orthogonalHeight.map (fun h => h * factor))]
  | none =>
    match m.sites.head? with
    | some site =>
      match site.objectPlacement with
      | some pl =>
        if pl.isLocalPlacement then
          match padCoords pl.coordinates with
          | (x, y, z) =>
            [("X_global_m", x.map (fun v => v * factor)),
             ("Y_global_m", y.map (fun v => v * factor)),
             ("Z_global_m", z.map (fun v => v * factor))]
        else []
      | none => []
    | none => []

/-- The parent → children index used by `flatten_hierarchy`. -/
abbrev RelDict := List (String × List IfcEntity)

/-- One `dict` assignment `d[k] = v`: replace the value at the first
occurrence of `k`, else append a new entry (Python dict semantics). -/
def dictInsert (d : RelDict) (k : String) (v : List IfcEntity) : RelDict :=
  match d with
  | [] => [(k, v)]
  | (k1, v1) :: rest =>
    if k1 = k then (k, v) :: rest else (k1, v1) :: dictInsert rest k v

/-- The dict comprehension
`{rel.RelatingObject.GlobalId: rel.RelatedObjects for rel in by_type("IfcRelAggregates")}`. -/
def buildRels (rs : List IfcRelAggregates) : RelDict :=
  rs.foldl (fun d r => dictInsert d r.relatingObject.globalId r.relatedObjects) []

/-- `rels.get(gid, [])`: first-match lookup, `[]` when absent. -/
def dictGet : RelDict → String → List IfcEntity
  | [], _ => []
  | (k1, v) :: rest, k => if k1 = k then v else dictGet rest k

/-- Python truthy-`or` on an optional string: `None` and `""` fall through
to the alternative. -/
def strOr (o : Option String) (dflt : String) : String :=
  match o with
  | some s => if s = "" then dflt else s
  | none => dflt

/-- `ent.Name or ent.LongName or ent.GlobalId`. -/
def displayName (e : IfcEntity) : String :=
  strOr e.name (strOr e.longName e.globalId)

/-- One row of the `Arborescence` table: the source's dict keys `Type`,
`Nom`, `Profondeur`, `Chemin`. -/
structure HierRow where
  typeName : String
  nom : String
  profondeur : Nat
  chemin : String
deriving DecidableEq

/-- The inner `walk(ent, path)` of `flatten_hierarchy`: emit the row for
the current entity, then recurse into `rels.get(ent.GlobalId, [])` in list
order.  The source recursion is unbounded (it would diverge on a cyclic
aggregation relation); `fuel` bounds the recursion depth, and on a
tree-shaped relation set any fuel larger than the tree height yields the
full traversal. -/
def walk (rels : RelDict) : Nat → IfcEntity → List String → List HierRow
  | 0, _, _ => []
  | Nat.succ fuel, ent, path =>
    let nm := displayName ent
    let newPath := path ++ [ent.kindOf ++ ":" ++ nm]
    { typeName := ent.kindOf, nom := nm, profondeur := path.length,
      chemin := String.intercalate "/" newPath }
      :: (dictGet rels ent.globalId).flatMap (fun child => walk rels fuel child newPath)

/-- `flatten_hierarchy`: build the relation index, then walk from the
first `IfcProject` (empty result when there is none). -/
def flatten_hierarchy (m : IfcModel) (fuel : Nat) : List HierRow :=
  match m.projects.head? with
  | none => []
  | some p => walk (buildRels m.relAggregates) fuel p []

/-- Spec-side walk, following the specification's words: emit a row for
the current node carrying an explicit 0-based depth counter (root depth 0,
incremented by one per recursion level) and the "/"-joined `kind:name`
chain from the root, then recurse into each child in list order. -/
def specWalk (rels : RelDict) : Nat → IfcEntity → Nat → List String → List HierRow
  | 0, _, _, _ => []
  | Nat.succ fuel, ent, depth, chain =>
    let nm := displayName ent
    let chain2 := chain ++ [ent.kindOf ++ ":" ++ nm]
    { typeName := ent.kindOf, nom := nm, profondeur := depth,
      chemin := String.intercalate "/" chain2 }
      :: (dictGet rels ent.globalId).flatMap
           (fun child => specWalk rels fuel child (depth + 1) chain2)

/-- Spec-side flattener: the pre-order depth-first traversal starting at
the root project node, depth 0 at the root; empty when no root exists. -/
def hierarchySpec (m : IfcModel) (fuel : Nat) : List HierRow :=
  match m.projects.head? with
  | none => []
  | some root => specWalk (buildRels m.relAggregates) fuel root 0 []

/-- Sort key relation of `get_levels`: ascending `t[1] or 0` (an unset
elevation counts as 0 for sorting only). -/
def levelKeyLE (a b : Option String × Option ℚ) : Prop :=
  a.2.getD 0 ≤ b.2.getD 0

instance : DecidableRel levelKeyLE := fun a b => by
  unfold levelKeyLE; infer_instance

instance : IsTotal (Option String × Option ℚ) levelKeyLE :=
  ⟨fun a b => le_total (a.2.getD 0) (b.2.getD 0)⟩

instance : IsTrans (Option String × Option ℚ) levelKeyLE :=
  ⟨fun _ _ _ hab hbc => le_trans hab hbc⟩

/-- `get_levels`: the `(Name, Elevation)` pairs of all building storeys,
sorted ascending by `Elevation or 0` (Python's `sorted` is stable; so is
insertion sort, and a stable sort by a total preorder is unique). -/
def get_levels (m : IfcModel) : List (Option String × Option ℚ) :=
  List.insertionSort levelKeyLE (m.storeys.map (fun s => (s.nom, s.elevation)))

/-- One row of the `Niveaux` table: name, local elevation in metres
(`Altimétrie locale (m)`), absolute elevation (`Altimétrie NGF (m)`). -/
structure LevelRow where
  nom : Option String
  alt : Option ℚ
  ngf : Option ℚ
deriving DecidableEq

/-- The `level_alt` / `level_ngf` computation of `build_workbook` for one
sorted `(Name, Elevation)` pair: the local elevation scaled by the length
factor when present, the absolute elevation adding `glob.get("Z_global_m")`
when both are present. -/
def levelRowOf (factor : ℚ) (siteZ : Option ℚ) (p : Option String × Option ℚ) : LevelRow :=
  { nom := p.1,
    alt := p.2.map (fun e => e * factor),
    ngf := match p.2.map (fun e => e * factor), siteZ with
           | some a, some z => some (a + z)
           | _, _ => none }

/-- The `Niveaux` rows built in `build_workbook`, over the sorted levels. -/
def levelsTable (m : IfcModel) : List LevelRow :=
  (get_levels m).map
    (levelRowOf (get_length_factor m) (fieldLookup (get_global_coords m) "Z_global_m"))

/-- The aggregation key of the entity counter: `(obj.is_a(), typ)`. -/
abbrev EntKey := String × Option String

/-- Subtype resolution of the entity aggregator: `PredefinedType` when the
attribute exists and is not `None`, else a truthy `ObjectType`, else
`None`. -/
def subtypeOf (p : IfcProduct) : Option String :=
  match p.predefinedType with
  | some t => some t
  | none =>
    match p.objectType with
    | some t => if t = "" then none else some t
    | none => none

/-- `entity_counter[key] = entity_counter.get(key, 0) + 1` on an
insertion-ordered association list. -/
def bumpKey : List (EntKey × Nat) → EntKey → List (EntKey × Nat)
  | [], k => [(k, 1)]
  | (k1, n) :: rest, k =>
    if k1 = k then (k1, n + 1) :: rest else (k1, n) :: bumpKey rest k

/-- The counting loop over `model.by_type("IfcProduct")`. -/
def countEntities (ps : List IfcProduct) : List (EntKey × Nat) :=
  ps.foldl (fun c p => bumpKey c (p.kindOf, subtypeOf p)) []

/-- One row of the `Entités` table. -/
structure EntRow where
  entite : String
  typeName : String
  nombre : Nat
deriving DecidableEq

/-- The sort key `lambda x: (-x[1], x[0][0])`: count descending, ties by
entity kind ascending. -/
def entKeyLE (a b : EntKey × Nat) : Prop :=
  b.2 < a.2 ∨ (a.2 = b.2 ∧ a.1.1 ≤ b.1.1)

instance : DecidableRel entKeyLE := fun a b => by
  unfold entKeyLE; infer_instance

instance : IsTotal (EntKey × Nat) entKeyLE := by
  constructor
  intro a b
  rcases lt_trichotomy a.2 b.2 with h | h | h
  · exact Or.inr (Or.inl h)
  · rcases le_total a.1.1 b.1.1 with hs | hs
    · exact Or.inl (Or.inr ⟨h, hs⟩)
    · exact Or.inr (Or.inr ⟨h.symm, hs⟩)
  · exact Or.inl (Or.inl h)

instance : IsTrans (EntKey × Nat) entKeyLE := by
  constructor
  intro a b c hab hbc
  rcases hab with h1 | ⟨h1, h1s⟩
  · rcases hbc with h2 | ⟨h2, _⟩
    · exact Or.inl (lt_trans h2 h1)
    · exact Or.inl (h2 ▸ h1)
  · rcases hbc with h2 | ⟨h2, h2s⟩
    · exact Or.inl (h1 ▸ h2)
    · exact Or.inr ⟨h1.trans h2, le_trans h1s h2s⟩

/-- The rendering `k[1] or "—"` of a subtype value. -/
def renderSubtype (o : Option String) : String :=
  match o with
  | some t => if t = "" then "—" else t
  | none => "—"

/-- The `Entités` rows: counter items sorted by `(-count, kind)` (stable),
then rendered. -/
def entityRows (m : IfcModel) : List EntRow :=
  (List.insertionSort entKeyLE (countEntities m.products)).map
    (fun kv =>
      { entite := kv.1.1, typeName := renderSubtype kv.1.2, nombre := kv.2 })

/-- Lift an optional number to a cell value. -/
def ofOptQ : Option ℚ → CellVal
  | some q => CellVal.vq q
  | none => CellVal.vnone

/-- Lift an optional string to a cell value. -/
def ofOptStr : Option String → CellVal
  | some s => CellVal.vs s
  | none => CellVal.vnone

/-- The `Résumé` key/value pairs: file name, human-readable file size,
schema identifier, then the `get_global_coords` items, then the
`get_site_geolocation` items, in that order.  The size string is the
result of `human_readable_size(stat().st_size)`, a float-formatting
detail passed in preformatted. -/
def summaryPairs (m : IfcModel) (fname sizeStr : String) : List (String × CellVal) :=
  [("fichier", CellVal.vs fname),
   ("taille", CellVal.vs sizeStr),
   ("schéma", CellVal.vs m.schema)]
  ++ (get_global_coords m).map (fun p => (p.1, ofOptQ p.2))
  ++ (get_site_geolocation m).map (fun p => (p.1, ofOptQ p.2))

/-- `write_df` with `start_row = start_col = 1`: the header cells (bold
white font) on row 2 from column B, then the data rows from row 3.
The table-region declaration and column widths of
`add_table_and_resize` are presentation mechanics carrying no cell data
and are not modelled. -/
def renderSheet (headers : List String) (rows : List (List CellVal)) : Sheet :=
  headers.enum.map
    (fun p => { row := 2, col := 2 + p.1, value := CellVal.vs p.2,
                style := "Font(bold=True,color=FFFFFF)" })
  ++ rows.enum.flatMap
      (fun r => r.2.enum.map
        (fun p => { row := 3 + r.1, col := 2 + p.1, value := p.2,
                    style := "default" }))

/-- `build_workbook`: the four sheets `Résumé`, `Niveaux`, `Arborescence`,
`Entités`, each rendered from its table.  (The conditional orange
highlighting of `IfcBuildingElementProxy` rows adds style overrides on
the `Entités` sheet; no claim under verification depends on them.) -/
def build_workbook (m : IfcModel) (fname sizeStr : String) (fuel : Nat) : Workbook :=
  [("Résumé",
    renderSheet ["Propriété", "Valeur"]
      ((summaryPairs m fname sizeStr).map (fun p => [CellVal.vs p.1, p.2]))),
   ("Niveaux",
    renderSheet ["Nom", "Altimétrie locale (m)", "Altimétrie NGF (m)"]
      ((levelsTable m).map (fun r => [ofOptStr r.nom, ofOptQ r.alt, ofOptQ r.ngf]))),
   ("Arborescence",
    renderSheet ["Type", "Nom", "Profondeur", "Chemin"]
      ((flatten_hierarchy m fuel).map
        (fun r => [CellVal.vs r.typeName, CellVal.vs r.nom,
                   CellVal.vq r.profondeur, CellVal.vs r.chemin]))),
   ("Entités",
    renderSheet ["Entité IFC", "Type", "Nombre"]
      ((entityRows m).map
        (fun r => [CellVal.vs r.entite, CellVal.vs r.typeName,
                   CellVal.vq r.nombre])))]

/-- The per-cell copy of the merge loop:
`dst[...].value = cell.value; dst[...]._style = cell._style` — the value
and its style are copied together. -/
def copyCell (c : Cell) : Cell :=
  { row := c.row, col := c.col, value := c.value, style := c.style }

/-- The merge branch of `process_single`: for every sheet of the input's
workbook, append to the accumulator a sheet named
`{sheet}_{ifc_path.stem}` holding the cell-by-cell copy. -/
def mergeCopy (acc : Workbook) (wb : Workbook) (stem : String) : Workbook :=
  wb.foldl (fun a p => a ++ [(p.1 ++ "_" ++ stem, p.2.map copyCell)]) acc

/-- Whether a fallible build succeeded. -/
def buildOk (r : Except String Unit) : Bool :=
  match r with
  | Except.ok _ => true
  | Except.error _ => false

/-- The message of a failed build (`""` for a success — only read on
failures). -/
def errMsgOf (r : Except String Unit) : String :=
  match r with
  | Except.ok _ => ""
  | Except.error msg => msg

/-- The batch loop `for f in ifc_files: process_single(f, ...)` of `main`,
where `build f` stands for the fallible body of `process_single` for
input `f` (in particular `ifcopenshell.open` raising on a corrupt file).
The loop wraps the call in no handler: a raise ends the loop.  The result
is the list of inputs processed successfully before any failure, and the
propagated exception (failing path, message) if one occurred. -/
def runBatch (build : String → Except String Unit) :
    List String → List String × Option (String × String)
  | [] => ([], none)
  | p :: rest =>
    match build p with
    | Except.ok _ =>
      let r := runBatch build rest
      (p :: r.1, r.2)
    | Except.error msg => ([], some (p, msg))

/-- First-match lookup in the entity counter (how the counter is read). -/
def countOf : List (EntKey × Nat) → EntKey → Nat
  | [], _ => 0
  | (k1, n) :: rest, k => if k1 = k then n else countOf rest k

/-- Order of the rendered `Entités` rows: count descending, ties by kind
name ascending. -/
def entRowLE (a b : EntRow) : Prop :=
  b.nombre < a.nombre ∨ (a.nombre = b.nombre ∧ a.entite ≤ b.entite)

/-- A model with none of the optional content (no units, no site, no map
conversion, no storeys, no relations, no project, no products). -/
def emptyModel : IfcModel :=
  { schema := "IFC4", unitAssignments := [], storeys := [], sites := [],
    mapConversions := [], relAggregates := [], projects := [], products := [] }

/-- A build oracle for the batch counterexample: every input parses
except `b.ifc`, which raises. -/
def demoBuild : String → Except String Unit := fun p =>
  if p = "b.ifc" then Except.error "corrupt" else Except.ok ()

/-- Sample parent entity (an `IfcProject`). -/
def entP : IfcEntity := { kindOf := "IfcProject", name := some "P", longName := none, globalId := "p" }

/-- Sample child entity `B`. -/
def entB : IfcEntity := { kindOf := "IfcSite", name := some "B", longName := none, globalId := "b" }

/-- Sample child entity `C`. -/
def entC : IfcEntity := { kindOf := "IfcSite", name := some "C", longName := none, globalId := "c" }

/-- A sample map conversion. -/
def mcSample : IfcMapConversion := { eastings := 100, northings := 200, orthogonalHeight := some 7 }

/-- A sample local placement at (10, 20). -/
def placementSample : IfcPlacement := { isLocalPlacement := true, coordinates := [10, 20] }

/-- A site carrying a local placement at (10, 20). -/
def siteWithPlacement : IfcSite :=
  { refLatitude := none, refLongitude := none, refElevation := none,
    objectPlacement := some placementSample }

/-- A model with both a map conversion and a placed site. -/
def modelBoth : IfcModel :=
  { emptyModel with mapConversions := [mcSample], sites := [siteWithPlacement] }

/-- A model whose only spatial source is the site placement. -/
def modelPlacementOnly : IfcModel := { emptyModel with sites := [siteWithPlacement] }

/-- A model with one storey at local elevation 2. -/
def storeyModel : IfcModel :=
  { emptyModel with storeys := [{ nom := some "RDC", elevation := some 2 }] }

/-- A model whose aggregation structure is the tree `P → [B, C]`. -/
def treeModel : IfcModel :=
  { emptyModel with
    relAggregates := [{ relatingObject := entP, relatedObjects := [entB, entC] }],
    projects := [entP] }

/-- The entity-aggregator example: 3 products of kind `X` with no
subtype, 1 of kind `Y` with subtype `S`. -/
def exampleEntModel : IfcModel :=
  { emptyModel with
    products := [{ kindOf := "X", predefinedType := none, objectType := none },
                 { kindOf := "X", predefinedType := none, objectType := none },
                 { kindOf := "X", predefinedType := none, objectType := none },
                 { kindOf := "Y", predefinedType := some "S", objectType := none }] }

/-! ## Helper lemmas -/

/-- The length factor takes only the two documented values. -/
theorem length_factor_cases (m : IfcModel) :
    get_length_factor m = 1 / 1000 ∨ get_length_factor m = 1 := by
  unfold get_length_factor
  split
  · exact Or.inr rfl
  · split
    · exact Or.inr rfl
    · split
      · exact Or.inl rfl
      · exact Or.inr rfl

/-- The length factor is nonnegative. -/
theorem length_factor_nonneg (m : IfcModel) : 0 ≤ get_length_factor m := by
  rcases length_factor_cases m with h | h <;> rw [h] <;> norm_num

/-- Python-dict update/lookup interaction. -/
theorem dictGet_dictInsert (d : RelDict) (k : String) (v : List IfcEntity) (k2 : String) :
    dictGet (dictInsert d k v) k2 = if k = k2 then v else dictGet d k2 := by
  induction d with
  | nil => simp [dictInsert, dictGet]
  | cons hd tl ih =>
    obtain ⟨k1, v1⟩ := hd
    by_cases h1 : k1 = k
    · subst h1
      simp only [dictInsert, if_pos rfl]
      by_cases h2 : k1 = k2 <;> simp [dictGet, h2]
    · simp only [dictInsert, if_neg h1]
      by_cases h2 : k1 = k2
      · subst h2
        have hne : ¬ k = k1 := fun h => h1 h.symm
        simp [dictGet, hne]
      · simp [dictGet, h2, ih]

/-- Folding one more relation into the dict. -/
theorem buildRels_concat (rs : List IfcRelAggregates) (r : IfcRelAggregates) :
    buildRels (rs ++ [r])
      = dictInsert (buildRels rs) r.relatingObject.globalId r.relatedObjects := by
  unfold buildRels
  rw [List.foldl_append]
  rfl

/-- Characterization of the site-placement guard. -/
theorem sitePlacementOk_iff (m : IfcModel) :
    sitePlacementOk m = true ↔
      ∃ s pl, m.sites.head? = some s ∧ s.objectPlacement = some pl
        ∧ pl.isLocalPlacement = true := by
  unfold sitePlacementOk
  cases hs : m.sites.head? with
  | none => simp
  | some s =>
    cases hp : s.objectPlacement with
    | none => simp [hp]
    | some pl => simp [hp]

/-- The guard's value when the first site and its placement exist. -/
theorem sitePlacementOk_eq (m : IfcModel) (s : IfcSite) (pl : IfcPlacement)
    (hs : m.sites.head? = some s) (hp : s.objectPlacement = some pl) :
    sitePlacementOk m = pl.isLocalPlacement := by
  unfold sitePlacementOk
  simp only [hs, hp]

/-- With no map conversion and no qualifying site placement, the global
coordinates are the empty dict. -/
theorem global_coords_none_source (m : IfcModel)
    (hmc : m.mapConversions = []) (hsp : sitePlacementOk m = false) :
    get_global_coords m = [] := by
  have hh : m.mapConversions.head? = none := by rw [hmc]; rfl
  cases hs : m.sites.head? with
  | none => simp [get_global_coords, hh, hs]
  | some s =>
    cases hp : s.objectPlacement with
    | none => simp [get_global_coords, hh, hs, hp]
    | some pl =>
      rw [sitePlacementOk_eq m s pl hs hp] at hsp
      simp [get_global_coords, hh, hs, hp, hsp]

/-- The inner `walk` of the source equals the spec-side pre-order walk
whose explicit depth counter starts at the length of the accumulated
path. -/
theorem walk_eq_specWalk (rels : RelDict) :
    ∀ (fuel : Nat) (ent : IfcEntity) (path : List String),
      walk rels fuel ent path = specWalk rels fuel ent path.length path := by
  intro fuel
  induction fuel with
  | zero => intro ent path; rfl
  | succ n ih =>
    intro ent path
    simp only [walk, specWalk]
    have hfun :
        (fun child => walk rels n child (path ++ [ent.kindOf ++ ":" ++ displayName ent]))
          = fun child => specWalk rels n child (path.length + 1)
              (path ++ [ent.kindOf ++ ":" ++ displayName ent]) := by
      funext c
      rw [ih c (path ++ [ent.kindOf ++ ":" ++ displayName ent])]
      simp
    rw [hfun]

/-! ## C10 — Geodetic Converter -/

/-- C10: `dms_to_dd` maps an absent input to absent; on a 3-component
tuple it returns `sign(deg) * (|deg| + min/60 + sec/3600)` (the missing
micro component defaults to 0) and on a 4-component tuple
`sign(deg) * (|deg| + min/60 + (sec + micro/1e6)/3600)`, the sign taken
from the degrees component only; `convert([0,0,0]) = 0`,
`convert([48,52,0]) ≈ 48.8667` and `convert([-33,52,0]) ≈ -33.8667`
within `1e-4`. -/
theorem dms_to_dd_spec :
    dms_to_dd none = none
    ∧ (∀ d mi s : ℚ, dms_to_dd (some [d, mi, s])
        = some ((if d < 0 then (-1 : ℚ) else 1) * (|d| + mi / 60 + s / 3600)))
    ∧ (∀ d mi s u : ℚ, dms_to_dd (some [d, mi, s, u])
        = some ((if d < 0 then (-1 : ℚ) else 1) * (|d| + mi / 60 + (s + u / 1000000) / 3600)))
    ∧ dms_to_dd (some [0, 0, 0]) = some 0
    ∧ (∃ q : ℚ, dms_to_dd (some [48, 52, 0]) = some q ∧ |q - 48.8667| < 1 / 10000)
    ∧ (∃ q : ℚ, dms_to_dd (some [-33, 52, 0]) = some q ∧ |q - (-33.8667)| < 1 / 10000) := by
  refine ⟨rfl, ?_, ?_, ?_, ?_, ?_⟩
  · intro d mi s
    simp [dms_to_dd, dmsCore, List.getD]
  · intro d mi s u
    simp [dms_to_dd, dmsCore, List.getD]
  · norm_num [dms_to_dd, dmsCore, List.getD]
  · refine ⟨733 / 15, by norm_num [dms_to_dd, dmsCore, List.getD], ?_⟩
    rw [abs_lt]
    constructor <;> norm_num
  · refine ⟨-508 / 15, ?_, ?_⟩
    · norm_num [dms_to_dd, dmsCore, List.getD]
    · rw [abs_lt]
      constructor <;> norm_num

/-! ## C8 — Unit Normalizer -/

/-- C8: the unit lookup is total (the embedding returns a value on every
model, the source's `except: pass` fallback); it returns 1/1000 exactly
when the first unit assignment's first SI length unit carries the MILLI
marker, and 1 in every other case — in particular on a model with no
unit assignment at all. -/
theorem length_factor_spec (m : IfcModel) :
    (get_length_factor m = 1 / 1000 ∨ get_length_factor m = 1)
    ∧ (get_length_factor m = 1 / 1000 ↔
        ∃ ua lu, m.unitAssignments.head? = some ua
          ∧ ua.find? (fun u => u.isSI && u.unitType == "LENGTHUNIT") = some lu
          ∧ lu.pfx = some "MILLI")
    ∧ (m.unitAssignments = [] → get_length_factor m = 1) := by
  refine ⟨length_factor_cases m, ⟨?_, ?_⟩, ?_⟩
  · intro h
    rw [get_length_factor] at h
    cases hua : m.unitAssignments.head? with
    | none => simp only [hua] at h; norm_num at h
    | some ua =>
      simp only [hua] at h
      cases hfind : ua.find? (fun u => u.isSI && u.unitType == "LENGTHUNIT") with
      | none => simp only [hfind] at h; norm_num at h
      | some lu =>
        simp only [hfind] at h
        by_cases hpfx : lu.pfx = some "MILLI"
        · exact ⟨ua, lu, rfl, hfind, hpfx⟩
        · simp only [beq_iff_eq, hpfx, if_false] at h
          norm_num at h
  · rintro ⟨ua, lu, hua, hfind, hpfx⟩
    rw [get_length_factor]
    simp only [hua, hfind]
    simp [hpfx]
  · intro h
    simp [get_length_factor, h]

/-- Witness for C8 at a concrete model with no unit assignment. -/
theorem length_factor_spec_witness :
    emptyModel.unitAssignments = [] ∧ get_length_factor emptyModel = 1 :=
  ⟨rfl, (length_factor_spec emptyModel).2.2 rfl⟩

/-! ## C1 — batch error handling -/

/-- C1 counterexample: in a batch of three inputs whose second is corrupt,
the loop of `main` produces only one successful output (not two), never
reaches the third input, and terminates by propagating the second
input's error — there is no failure record and no continued
processing. -/
theorem batch_isolation_counterexample :
    (runBatch demoBuild ["a.ifc", "b.ifc", "c.ifc"]).1 = ["a.ifc"]
    ∧ (runBatch demoBuild ["a.ifc", "b.ifc", "c.ifc"]).1.length ≠ 2
    ∧ "c.ifc" ∉ (runBatch demoBuild ["a.ifc", "b.ifc", "c.ifc"]).1
    ∧ (runBatch demoBuild ["a.ifc", "b.ifc", "c.ifc"]).2 = some ("b.ifc", "corrupt") := by
  decide

/-- C1 (amended): the batch loop has no per-input handler — the inputs
strictly before the first failing one are processed in order, and at the
first failure the offending input's exception propagates, so no later
input is processed and no failure list is accumulated. -/
theorem batch_first_failure_aborts (build : String → Except String Unit) (paths : List String) :
    (runBatch build paths).1 = paths.takeWhile (fun p => buildOk (build p))
    ∧ (runBatch build paths).2
      = (paths.dropWhile (fun p => buildOk (build p))).head?.map
          (fun p => (p, errMsgOf (build p))) := by
  induction paths with
  | nil => exact ⟨rfl, rfl⟩
  | cons p rest ih =>
    cases hb : build p with
    | ok u =>
      constructor
      · simp [runBatch, hb, List.takeWhile_cons, buildOk, ih.1]
      · simp [runBatch, hb, List.dropWhile_cons, buildOk, ih.2]
    | error msg =>
      constructor
      · simp [runBatch, hb, List.takeWhile_cons, buildOk]
      · simp [runBatch, hb, List.dropWhile_cons, buildOk, errMsgOf]

/-! ## C3 — parent→children index -/

/-- C3 counterexample: two aggregation relations naming the same parent
`p`, the first with children `[B]` and the second with children `[C]`;
the index maps `p` to `[C]` alone — the dict comprehension overwrites,
it does not concatenate to `[B, C]`. -/
theorem rels_concat_counterexample :
    dictGet (buildRels [{ relatingObject := entP, relatedObjects := [entB] },
                        { relatingObject := entP, relatedObjects := [entC] }]) "p" = [entC]
    ∧ dictGet (buildRels [{ relatingObject := entP, relatedObjects := [entB] },
                          { relatingObject := entP, relatedObjects := [entC] }]) "p"
        ≠ [entB, entC] := by
  decide

/-- C3 (amended): when several aggregation relations name the same
parent, the index keeps exactly the child list of the **last** such
relation in declaration order — each later relation replaces the earlier
one, whose children are dropped from the walk. -/
theorem rels_last_relation_wins (rs : List IfcRelAggregates) (k : String) :
    dictGet (buildRels rs) k
      = ((rs.filter (fun r => r.relatingObject.globalId == k)).getLast?.map
          (fun r => r.relatedObjects)).getD [] := by
  induction rs using List.reverseRecOn with
  | nil => rfl
  | append_singleton l r ih =>
    rw [buildRels_concat, dictGet_dictInsert]
    by_cases hk : r.relatingObject.globalId = k
    · simp [hk, List.filter_append, List.getLast?_concat]
    · simp [hk, List.filter_append, ih]

/-! ## C4 — Summary table -/

/-- C4 counterexample: on a model with no map conversion and no site at
all, the Summary rows for GlobalOrigin and GeoReference are omitted
entirely (the source returns empty dicts), not emitted with empty
values. -/
theorem summary_rows_omitted_counterexample :
    "X_global_m" ∉ (summaryPairs emptyModel "f.ifc" "1.0 KB").map Prod.fst
    ∧ "latitude" ∉ (summaryPairs emptyModel "f.ifc" "1.0 KB").map Prod.fst
    ∧ (summaryPairs emptyModel "f.ifc" "1.0 KB").map Prod.fst
        = ["fichier", "taille", "schéma"] := by
  decide

/-- C4 (amended): the Summary lists file name, file size and schema, then
the GlobalOrigin items, then the GeoReference items, in that fixed
order; the three GlobalOrigin rows are present whenever a map conversion
or a qualifying site placement exists (unset fields inside them are
emitted with an empty value), and are omitted entirely when neither
exists; the three GeoReference rows are present exactly when the model
has a site. -/
theorem summary_order_and_presence (m : IfcModel) (fname sizeStr : String) :
    ((summaryPairs m fname sizeStr).map Prod.fst
      = ["fichier", "taille", "schéma"]
        ++ (get_global_coords m).map Prod.fst
        ++ (get_site_geolocation m).map Prod.fst)
    ∧ (m.mapConversions ≠ [] →
        (get_global_coords m).map Prod.fst = ["X_global_m", "Y_global_m", "Z_global_m"])
    ∧ (sitePlacementOk m = true →
        (get_global_coords m).map Prod.fst = ["X_global_m", "Y_global_m", "Z_global_m"])
    ∧ (m.mapConversions = [] → sitePlacementOk m = false → get_global_coords m = [])
    ∧ (m.sites ≠ [] →
        (get_site_geolocation m).map Prod.fst = ["latitude", "longitude", "elevation_m"])
    ∧ (m.sites = [] → get_site_geolocation m = []) := by
  refine ⟨?_, ?_, ?_, ?_, ?_, ?_⟩
  · unfold summaryPairs
    rw [List.map_append, List.map_append, List.map_map, List.map_map]
    rfl
  · intro h
    obtain ⟨mc, rest, hm⟩ : ∃ mc rest, m.mapConversions = mc :: rest := by
      cases hmc : m.mapConversions with
      | nil => exact absurd hmc h
      | cons mc rest => exact ⟨mc, rest, rfl⟩
    simp [get_global_coords, hm]
  · intro h
    cases hmc : m.mapConversions.head? with
    | some mc => simp [get_global_coords, hmc]
    | none =>
      obtain ⟨s, pl, hs, hp, hloc⟩ := (sitePlacementOk_iff m).mp h
      simp [get_global_coords, hmc, hs, hp, hloc, padCoords]
  · exact fun hmc hsp => global_coords_none_source m hmc hsp
  · intro h
    obtain ⟨s, rest, hm⟩ : ∃ s rest, m.sites = s :: rest := by
      cases hs : m.sites with
      | nil => exact absurd hs h
      | cons s rest => exact ⟨s, rest, rfl⟩
    simp [get_site_geolocation, hm]
  · intro h
    simp [get_site_geolocation, h]

/-- Witness for C4, exercising both a model with the two sources present
and a model with neither. -/
theorem summary_order_and_presence_witness :
    ((get_global_coords modelBoth).map Prod.fst
      = ["X_global_m", "Y_global_m", "Z_global_m"])
    ∧ ((get_site_geolocation modelBoth).map Prod.fst
      = ["latitude", "longitude", "elevation_m"])
    ∧ get_global_coords emptyModel = []
    ∧ get_site_geolocation emptyModel = [] :=
  ⟨(summary_order_and_presence modelBoth "m.ifc" "1.0 KB").2.1 (by decide),
   (summary_order_and_presence modelBoth "m.ifc" "1.0 KB").2.2.2.2.1 (by decide),
   (summary_order_and_presence emptyModel "m.ifc" "1.0 KB").2.2.2.1 rfl rfl,
   (summary_order_and_presence emptyModel "m.ifc" "1.0 KB").2.2.2.2.2 rfl⟩

/-! ## C5 — GlobalOrigin two-tier derivation -/

/-- C5: GlobalOrigin is derived solely from the map-conversion object when
one exists (eastings/northings/orthogonal height scaled by the unit
factor, the height unset when absent) — in particular the result is
independent of the model's sites; only without a map conversion does it
fall back to the first site's local-placement coordinates scaled by the
factor (third coordinate unset when only two are given, via the padding);
when neither source exists all three fields are unset. -/
theorem global_coords_two_tier (m : IfcModel) :
    (∀ mc, m.mapConversions.head? = some mc →
      get_global_coords m
        = [("X_global_m", some (mc.eastings * get_length_factor m)),
           ("Y_global_m", some (mc.northings * get_length_factor m)),
           ("Z_global_m", mc.orthogonalHeight.map (fun h => h * get_length_factor m))])
    ∧ (∀ sites2, m.mapConversions ≠ [] →
        get_global_coords { m with sites := sites2 } = get_global_coords m)
    ∧ (∀ s pl, m.mapConversions = [] → m.sites.head? = some s →
        s.objectPlacement = some pl → pl.isLocalPlacement = true →
        get_global_coords m
          = [("X_global_m",
                (padCoords pl.coordinates).1.map (fun v => v * get_length_factor m)),
             ("Y_global_m",
                (padCoords pl.coordinates).2.1.map (fun v => v * get_length_factor m)),
             ("Z_global_m",
                (padCoords pl.coordinates).2.2.map (fun v => v * get_length_factor m))])
    ∧ (m.mapConversions = [] → sitePlacementOk m = false →
        fieldLookup (get_global_coords m) "X_global_m" = none
        ∧ fieldLookup (get_global_coords m) "Y_global_m" = none
        ∧ fieldLookup (get_global_coords m) "Z_global_m" = none) := by
  refine ⟨?_, ?_, ?_, ?_⟩
  · intro mc h
    simp [get_global_coords, h]
  · intro sites2 hne
    obtain ⟨mc, rest, hm⟩ : ∃ mc rest, m.mapConversions = mc :: rest := by
      cases hmc : m.mapConversions with
      | nil => exact absurd hmc hne
      | cons mc rest => exact ⟨mc, rest, rfl⟩
    simp [get_global_coords, hm, get_length_factor]
  · intro s pl hmc hs hp hloc
    have hh : m.mapConversions.head? = none := by rw [hmc]; rfl
    simp [get_global_coords, hh, hs, hp, hloc]
  · intro hmc hsp
    rw [global_coords_none_source m hmc hsp]
    exact ⟨rfl, rfl, rfl⟩

/-- Witness for C5 at concrete models: a model with both sources uses the
map conversion and ignores the sites; a model with only a placed site
uses the scaled placement; a model with neither leaves Z unset. -/
theorem global_coords_two_tier_witness :
    (get_global_coords modelBoth
      = [("X_global_m", some (mcSample.eastings * get_length_factor modelBoth)),
         ("Y_global_m", some (mcSample.northings * get_length_factor modelBoth)),
         ("Z_global_m",
            mcSample.orthogonalHeight.map (fun h => h * get_length_factor modelBoth))])
    ∧ get_global_coords { modelBoth with sites := [] } = get_global_coords modelBoth
    ∧ (get_global_coords modelPlacementOnly
      = [("X_global_m",
            (padCoords placementSample.coordinates).1.map
              (fun v => v * get_length_factor modelPlacementOnly)),
         ("Y_global_m",
            (padCoords placementSample.coordinates).2.1.map
              (fun v => v * get_length_factor modelPlacementOnly)),
         ("Z_global_m",
            (padCoords placementSample.coordinates).2.2.map
              (fun v => v * get_length_factor modelPlacementOnly))])
    ∧ fieldLookup (get_global_coords emptyModel) "Z_global_m" = none :=
  ⟨(global_coords_two_tier modelBoth).1 mcSample rfl,
   (global_coords_two_tier modelBoth).2.1 [] (by decide),
   (global_coords_two_tier modelPlacementOnly).2.2.1 siteWithPlacement placementSample
     rfl rfl rfl rfl,
   ((global_coords_two_tier emptyModel).2.2.2 rfl rfl).2.2⟩

/-! ## C6 — Hierarchy Flattener pre-order traversal -/

/-- C6: the flattener output is exactly the spec-side pre-order
depth-first traversal (row depth the 0-based distance from the root, path
the "/"-joined `kind:name` chain, display name by the
short-name/long-name/identifier preference, children in list order);
a model with no root project yields the empty sequence; on the concrete
tree `P → [B, C]` the traversal is `[P at depth 0, B at 1, C at 1]` in
DFS order with the expected paths. -/
theorem flatten_hierarchy_preorder (m : IfcModel) (fuel : Nat) :
    flatten_hierarchy m fuel = hierarchySpec m fuel
    ∧ (m.projects = [] → flatten_hierarchy m fuel = [])
    ∧ flatten_hierarchy treeModel 5
        = [{ typeName := "IfcProject", nom := "P", profondeur := 0,
             chemin := "IfcProject:P" },
           { typeName := "IfcSite", nom := "B", profondeur := 1,
             chemin := "IfcProject:P/IfcSite:B" },
           { typeName := "IfcSite", nom := "C", profondeur := 1,
             chemin := "IfcProject:P/IfcSite:C" }] := by
  refine ⟨?_, ?_, by decide⟩
  · unfold flatten_hierarchy hierarchySpec
    cases hp : m.projects.head? with
    | none => rfl
    | some p => exact walk_eq_specWalk (buildRels m.relAggregates) fuel p []
  · intro h
    unfold flatten_hierarchy
    simp [h]

/-- Witness for C6 at the empty model: no root yields the empty
sequence, which also agrees with the spec-side traversal. -/
theorem flatten_hierarchy_preorder_witness :
    flatten_hierarchy emptyModel 3 = hierarchySpec emptyModel 3
    ∧ flatten_hierarchy emptyModel 3 = [] :=
  ⟨(flatten_hierarchy_preorder emptyModel 3).1,
   (flatten_hierarchy_preorder emptyModel 3).2.1 rfl⟩

/-! ## C7 — Entity Aggregator -/

/-- Bumping one key changes exactly that key's count by one. -/
theorem countOf_bumpKey (c : List (EntKey × Nat)) (k k2 : EntKey) :
    countOf (bumpKey c k) k2
      = if k = k2 then countOf c k2 + 1 else countOf c k2 := by
  induction c with
  | nil =>
    simp only [bumpKey, countOf]
  | cons hd tl ih =>
    obtain ⟨k1, n⟩ := hd
    by_cases h1 : k1 = k
    · subst h1
      simp only [bumpKey, if_pos rfl, countOf]
      by_cases h2 : k1 = k2
      · subst h2; simp
      · simp [h2]
    · simp only [bumpKey, if_neg h1, countOf]
      by_cases h2 : k1 = k2
      · subst h2
        have hk : ¬ k = k1 := fun h => h1 h.symm
        simp [hk]
      · simp [h2, ih]

/-- The counter holds, for every key, the number of products mapping to
that key. -/
theorem countOf_countEntities (ps : List IfcProduct) (k : EntKey) :
    countOf (countEntities ps) k
      = ps.countP (fun p => (p.kindOf, subtypeOf p) == k) := by
  suffices h : ∀ c : List (EntKey × Nat),
      countOf (ps.foldl (fun c p => bumpKey c (p.kindOf, subtypeOf p)) c) k
        = countOf c k + ps.countP (fun p => (p.kindOf, subtypeOf p) == k) by
    simpa [countEntities, countOf] using h []
  induction ps with
  | nil => intro c; simp
  | cons p ps ih =>
    intro c
    rw [List.foldl_cons, ih (bumpKey c (p.kindOf, subtypeOf p)), countOf_bumpKey,
      List.countP_cons]
    by_cases h : (p.kindOf, subtypeOf p) = k
    · simp only [h, if_pos rfl, beq_iff_eq, if_true]
      omega
    · simp [h]

/-- Keys after a bump: unchanged when present, appended when new. -/
theorem keys_bumpKey (c : List (EntKey × Nat)) (k : EntKey) :
    (bumpKey c k).map Prod.fst
      = if k ∈ c.map Prod.fst then c.map Prod.fst else c.map Prod.fst ++ [k] := by
  induction c with
  | nil => simp [bumpKey]
  | cons hd tl ih =>
    obtain ⟨k1, n⟩ := hd
    by_cases h1 : k1 = k
    · subst h1
      simp [bumpKey]
    · have hne : k ≠ k1 := fun h => h1 h.symm
      simp only [bumpKey, if_neg h1, List.map_cons, ih]
      by_cases hk : k ∈ tl.map Prod.fst
      · simp [hk, hne]
      · simp [hk, hne]

/-- The counter never holds the same key twice. -/
theorem nodup_keys_countEntities (ps : List IfcProduct) :
    ((countEntities ps).map Prod.fst).Nodup := by
  suffices h : ∀ c : List (EntKey × Nat), (c.map Prod.fst).Nodup →
      ((ps.foldl (fun c p => bumpKey c (p.kindOf, subtypeOf p)) c).map Prod.fst).Nodup by
    exact h [] (by simp)
  induction ps with
  | nil => intro c hc; simpa using hc
  | cons p ps ih =>
    intro c hc
    rw [List.foldl_cons]
    apply ih
    by_cases hk : (p.kindOf, subtypeOf p) ∈ c.map Prod.fst
    · rw [keys_bumpKey, if_pos hk]; exact hc
    · rw [keys_bumpKey, if_neg hk]
      simp [List.nodup_append, hc, hk]

/-- The rendered rows are sorted by count descending, ties by kind. -/
theorem entityRows_sorted (m : IfcModel) : (entityRows m).Pairwise entRowLE := by
  unfold entityRows
  rw [List.pairwise_map]
  exact (List.sorted_insertionSort entKeyLE (countEntities m.products)).imp
    (fun hab => hab)

/-- C7: for every model, the entity counter holds the number of
placeable-product instances per `(kind, subtype)` key — subtype being the
predefined type when present, else a nonempty object type, else unset —
with no key occurring twice; the rendered rows are ordered by count
descending with ties broken by kind name ascending; on the concrete
example of 3 kind-X products with no subtype and 1 kind-Y product with
subtype S, the table is `[(X, —, 3), (Y, S, 1)]`. -/
theorem entities_table_spec (m : IfcModel) :
    (∀ k : EntKey, countOf (countEntities m.products) k
        = m.products.countP (fun p => (p.kindOf, subtypeOf p) == k))
    ∧ ((countEntities m.products).map Prod.fst).Nodup
    ∧ (entityRows m).Pairwise entRowLE
    ∧ entityRows exampleEntModel
        = [{ entite := "X", typeName := "—", nombre := 3 },
           { entite := "Y", typeName := "S", nombre := 1 }] :=
  ⟨fun k => countOf_countEntities m.products k,
   nodup_keys_countEntities m.products,
   entityRows_sorted m,
   by decide⟩

/-! ## C9 — Levels table -/

/-- Key of a scaled optional elevation. -/
theorem opt_map_mul_getD (e : Option ℚ) (f : ℚ) :
    (e.map (fun v => v * f)).getD 0 = e.getD 0 * f := by
  cases e <;> simp

/-- C9: the Levels table holds one row per building storey (a permutation
of the per-storey rows, each keeping its name, its scaled local elevation
— unset staying unset — and its absolute elevation); rows are sorted
ascending by local elevation with an unset elevation counting as 0 for
the sort only; each row's absolute elevation is local + GlobalOrigin.z
when both are known, else unset. -/
theorem levels_table_spec (m : IfcModel) :
    (levelsTable m).Perm
      (m.storeys.map (fun s =>
        levelRowOf (get_length_factor m)
          (fieldLookup (get_global_coords m) "Z_global_m") (s.nom, s.elevation)))
    ∧ (levelsTable m).Pairwise (fun a b => a.alt.getD 0 ≤ b.alt.getD 0)
    ∧ (∀ r ∈ levelsTable m,
        r.ngf = match r.alt, fieldLookup (get_global_coords m) "Z_global_m" with
                | some a, some z => some (a + z)
                | _, _ => none) := by
  refine ⟨?_, ?_, ?_⟩
  · unfold levelsTable get_levels
    refine ((List.perm_insertionSort levelKeyLE _).map _).trans ?_
    rw [List.map_map]
    exact List.Perm.refl _
  · unfold levelsTable get_levels
    rw [List.pairwise_map]
    refine (List.sorted_insertionSort levelKeyLE
      (m.storeys.map (fun s => (s.nom, s.elevation)))).imp ?_
    intro a b hab
    show ((levelRowOf _ _ a).alt).getD 0 ≤ ((levelRowOf _ _ b).alt).getD 0
    unfold levelRowOf
    rw [opt_map_mul_getD, opt_map_mul_getD]
    exact mul_le_mul_of_nonneg_right hab (length_factor_nonneg m)
  · intro r hr
    unfold levelsTable at hr
    obtain ⟨p, hp, rfl⟩ := List.mem_map.mp hr
    rfl

/-- Witness for C9: the membership clause applied to the one row of a
concrete one-storey model. -/
theorem levels_table_spec_witness :
    ({ nom := some "RDC", alt := some 2, ngf := none } : LevelRow).ngf
      = match ({ nom := some "RDC", alt := some 2, ngf := none } : LevelRow).alt,
              fieldLookup (get_global_coords storeyModel) "Z_global_m" with
        | some a, some z => some (a + z)
        | _, _ => none :=
  (levels_table_spec storeyModel).2.2
    { nom := some "RDC", alt := some 2, ngf := none }
    (by simp [levelsTable, get_levels, levelRowOf, storeyModel, emptyModel,
          get_length_factor, get_global_coords, fieldLookup,
          List.insertionSort, List.orderedInsert])

/-! ## C2 — merge-mode sheet copy -/

/-- The merge copy appends the renamed, cell-copied sheets to the
accumulator. -/
theorem mergeCopy_eq (acc wb : Workbook) (stem : String) :
    mergeCopy acc wb stem
      = acc ++ wb.map (fun p => (p.1 ++ "_" ++ stem, p.2.map copyCell)) := by
  induction wb generalizing acc with
  | nil => simp [mergeCopy]
  | cons p wb ih =>
    show mergeCopy (acc ++ [(p.1 ++ "_" ++ stem, p.2.map copyCell)]) wb stem = _
    rw [ih]
    simp

/-- Sheet names after a merge copy. -/
theorem mergeCopy_names (acc wb : Workbook) (stem : String) :
    (mergeCopy acc wb stem).map Prod.fst
      = acc.map Prod.fst ++ wb.map (fun p => p.1 ++ "_" ++ stem) := by
  rw [mergeCopy_eq, List.map_append, List.map_map]
  rfl

/-- C2: every cell copy carries both the source value and the source
style; the merge copy appends, for every sheet of the input workbook, a
sheet named `{sheet}_{stem}` holding the styled copy; a generated
workbook always has exactly the four standard sheets; merging the
workbooks of two inputs with stems `a` and `b` yields the eight
qualified sheet names with no collision. -/
theorem merge_sheet_naming_and_style (acc wb : Workbook) (stem : String) :
    (∀ c : Cell, (copyCell c).value = c.value ∧ (copyCell c).style = c.style)
    ∧ mergeCopy acc wb stem
        = acc ++ wb.map (fun p => (p.1 ++ "_" ++ stem, p.2.map copyCell))
    ∧ (∀ nm sh, (nm, sh) ∈ wb →
        (nm ++ "_" ++ stem, sh.map copyCell) ∈ mergeCopy acc wb stem)
    ∧ (∀ m2 fn sz fuel, (build_workbook m2 fn sz fuel).map Prod.fst
        = ["Résumé", "Niveaux", "Arborescence", "Entités"])
    ∧ (∀ mA mB fnA szA fuelA fnB szB fuelB,
        ((mergeCopy (mergeCopy [] (build_workbook mA fnA szA fuelA) "a")
            (build_workbook mB fnB szB fuelB) "b").map Prod.fst
          = ["Résumé_a", "Niveaux_a", "Arborescence_a", "Entités_a",
             "Résumé_b", "Niveaux_b", "Arborescence_b", "Entités_b"])
        ∧ (["Résumé_a", "Niveaux_a", "Arborescence_a", "Entités_a",
            "Résumé_b", "Niveaux_b", "Arborescence_b", "Entités_b"] : List String).Nodup) := by
  refine ⟨fun c => ⟨rfl, rfl⟩, mergeCopy_eq acc wb stem, ?_, fun m2 fn sz fuel => rfl, ?_⟩
  · intro nm sh hmem
    rw [mergeCopy_eq]
    exact List.mem_append_right _ (List.mem_map.mpr ⟨(nm, sh), hmem, rfl⟩)
  · intro mA mB fnA szA fuelA fnB szB fuelB
    constructor
    · rw [mergeCopy_names, mergeCopy_names]
      rfl
    · decide

/-- Witness for C2: the membership clause at a concrete one-sheet
workbook. -/
theorem merge_sheet_naming_and_style_witness :
    ("Résumé_x", ([] : Sheet).map copyCell)
      ∈ mergeCopy [] [("Résumé", ([] : Sheet))] "x" :=
  (merge_sheet_naming_and_style [] [("Résumé", ([] : Sheet))] "x").2.2.1
    "Résumé" [] (by simp)

end Anabim
